import Mathlib

/-
Verification development for the admission-and-agreement core of the
accessor-io/ethereum-p2p node.

The definitions below are a shallow embedding of the TypeScript sources:
  - src/verification/validation_rules.ts   (NonceValidator, GasValidator)
  - src/verification/block_validator.ts    (BlockValidator)
  - src/chain/consensus_manager.ts         (ConsensusManager)
  - src/chain/chain_manager.ts             (ForkDetector, ChainManager)
  - src/sync/finality_tracker.ts           (FinalityTracker)
  - src/data/transaction_pool.ts           (TransactionPool)
  - the transaction persistence module     (TransactionPersistence)

Conventions of the embedding:
  - TypeScript `number` and `bigint` fields are modelled as `Int`
    (counts and map sizes are `Nat`); `Buffer` is a `List Nat` of bytes.
  - `Map` objects are modelled as association lists with JavaScript `Map`
    update semantics (replace in place when the key exists, append
    otherwise), or as functions to `Option` where iteration order is
    irrelevant.
  - Thrown exceptions are modelled with `Except String` / `Option`;
    a `try`/`catch` block is a `match` on the corresponding value.
  - `JSON.stringify` is modelled on a type of JavaScript runtime values:
    it fails (TypeError) on any `bigint`, and serializes a `Buffer`
    through its `toJSON` method, exactly as in Node.js.
-/

/-! ## Data model (network/types: BlockHeader, Transaction, BlockData, …) -/

/-- Block header, from the `BlockHeader` interface in network/types.
`difficulty`, `totalDifficulty`, `gasLimit` and `gasUsed` are `bigint`
in the source; `extraData` is a `Buffer`. -/
structure BlockHeader where
  number : Int
  parentHash : String
  timestamp : Int
  miner : String
  stateRoot : String
  transactionsRoot : String
  receiptsRoot : String
  difficulty : Int
  totalDifficulty : Int
  size : Int
  gasLimit : Int
  gasUsed : Int
  extraData : List Nat
  deriving Repr, DecidableEq

/-- Transaction, from the `Transaction` interface in network/types.
`value`, `gasPrice`, `gasLimit` are `bigint`; `data` is a `Buffer`;
`from` and `to` are renamed `fromAddr` and `toAddr` because they are Lean keywords. -/
structure Transaction where
  hash : String
  nonce : Int
  fromAddr : String
  toAddr : String
  value : Int
  gasPrice : Int
  gasLimit : Int
  data : List Nat
  v : Int
  r : String
  s : String
  deriving Repr, DecidableEq

/-- Block body, from the `BlockBody` interface in network/types. -/
structure BlockBody where
  transactions : List Transaction
  uncles : List BlockHeader
  deriving Repr, DecidableEq

/-- Block, from the `BlockData` interface in network/types. -/
structure BlockData where
  hash : String
  header : BlockHeader
  body : BlockBody
  transactions : List Transaction
  deriving Repr, DecidableEq

/-- Validation outcome, from the `ValidationResult` interface
(network/types and consensus_manager.ts): `{ isValid, error? }`. -/
structure ValidationResult where
  isValid : Bool
  error : Option String := none
  deriving Repr, DecidableEq

/-- Account state as read through the StateManager:
`{ nonce: number, balance: bigint }` (the code never reads the other
fields in the embedded components). -/
structure AccountState where
  nonce : Int
  balance : Int
  deriving Repr, DecidableEq

/-- Network state as read through the StateManager (`getNetworkState`):
only `blockGasLimit` is consumed by the gas rule. -/
structure NetworkState where
  blockGasLimit : Int
  deriving Repr, DecidableEq

/-- Modelled from the spec: the StateManager collaborator contract of
section 6 (`getAccountState`, `getBlock`, `getBlockAtHeight`,
`getNetworkState`, `getNetworkDifficulty`, `getLatestBlock`).  The
StateManager implementation itself is not part of the embedded core;
each operation reads it as an oracle.  `getLatestBlock = none` models a
lookup that throws. -/
structure StateEnv where
  getAccountState : String → AccountState
  getNetworkState : NetworkState
  getNetworkDifficulty : Int
  getBlock : String → Option BlockData
  getBlockAtHeight : Int → Option BlockData
  getLatestBlock : Option BlockData

/-! ## JavaScript runtime values and JSON.stringify -/

/-- A parsed JSON document (what `JSON.parse` can produce). -/
inductive Json where
  | str : String → Json
  | num : Int → Json
  | bool : Bool → Json
  | arr : List Json → Json
  | obj : List (String × Json) → Json

/-- A JavaScript runtime value handed to `JSON.stringify`: JSON-safe
values plus `bigint` and `Buffer`. -/
inductive JsValue where
  | str : String → JsValue
  | num : Int → JsValue
  | big : Int → JsValue
  | bool : Bool → JsValue
  | buf : List Nat → JsValue
  | arr : List JsValue → JsValue
  | obj : List (String × JsValue) → JsValue

mutual

/-- `JSON.stringify` on a JavaScript value, as in Node.js: a `bigint`
anywhere in the value raises `TypeError: Do not know how to serialize a
BigInt` (modelled as `none`); a `Buffer` serializes through its `toJSON`
method to `{ type: "Buffer", data: [...] }`. -/
def jsonStringify : JsValue → Option Json
  | .str s => some (.str s)
  | .num n => some (.num n)
  | .big _ => none
  | .bool b => some (.bool b)
  | .buf bs => some (.obj [("type", .str "Buffer"), ("data", .arr (bs.map fun b => .num b))])
  | .arr xs => match jsonStringifyList xs with
    | some js => some (.arr js)
    | none => none
  | .obj fs => match jsonStringifyFields fs with
    | some js => some (.obj js)
    | none => none

/-- Element-wise serialization of a JavaScript array. -/
def jsonStringifyList : List JsValue → Option (List Json)
  | [] => some []
  | x :: xs => match jsonStringify x, jsonStringifyList xs with
    | some j, some js => some (j :: js)
    | _, _ => none

/-- Field-wise serialization of a JavaScript object. -/
def jsonStringifyFields : List (String × JsValue) → Option (List (String × Json))
  | [] => some []
  | (k, v) :: fs => match jsonStringify v, jsonStringifyFields fs with
    | some j, some js => some ((k, j) :: js)
    | _, _ => none

end

/-- The JavaScript runtime object behind a `BlockHeader` value: the
four difficulty/gas fields are `bigint`, `extraData` is a `Buffer`. -/
def headerToJs (h : BlockHeader) : JsValue :=
  .obj [("number", .num h.number), ("parentHash", .str h.parentHash),
        ("timestamp", .num h.timestamp), ("miner", .str h.miner),
        ("stateRoot", .str h.stateRoot), ("transactionsRoot", .str h.transactionsRoot),
        ("receiptsRoot", .str h.receiptsRoot), ("difficulty", .big h.difficulty),
        ("totalDifficulty", .big h.totalDifficulty), ("size", .num h.size),
        ("gasLimit", .big h.gasLimit), ("gasUsed", .big h.gasUsed),
        ("extraData", .buf h.extraData)]

/-- The JavaScript runtime object behind a `Transaction` value:
`value`, `gasPrice` and `gasLimit` are `bigint`, `data` is a `Buffer`. -/
def txToJs (t : Transaction) : JsValue :=
  .obj [("hash", .str t.hash), ("nonce", .num t.nonce), ("from", .str t.fromAddr),
        ("to", .str t.toAddr), ("value", .big t.value), ("gasPrice", .big t.gasPrice),
        ("gasLimit", .big t.gasLimit), ("data", .buf t.data), ("v", .num t.v),
        ("r", .str t.r), ("s", .str t.s)]

/-! ## validation_rules.ts: NonceValidator -/

namespace NonceValidator

/-- `MAX_PENDING_NONCES` from validation_rules.ts. -/
def MAX_PENDING_NONCES : Nat := 10

/-- `MAX_NONCE_GAP` from validation_rules.ts. -/
def MAX_NONCE_GAP : Int := 100

/-- The per-account reserved-nonce cache (`Map<string, Set<number>>`).
`getOrCreateNonceSet` makes an absent entry behave as the empty set, so
the cache is modelled as a total function; the list is duplicate-free by
construction (`Set.add` is a no-op on present elements and the code only
adds nonces that `isNonceUsed` reported absent). -/
def NonceCache := String → List Int

/-- The empty nonce cache. -/
def emptyCache : NonceCache := fun _ => []

/-- `NonceValidator.validate` from validation_rules.ts, returning the
result together with the updated nonce cache (the cache is mutated only
on acceptance).  `NONCE_REGEX` (`/^[0-9]+$/`) on `nonce.toString()`
accepts exactly the nonnegative integers. -/
def validate (env : StateEnv) (cache : NonceCache) (tx : Transaction) :
    ValidationResult × NonceCache :=
  if tx.nonce < 0 then
    (⟨false, some "Invalid nonce format"⟩, cache)
  else
    let currentNonce := (env.getAccountState tx.fromAddr).nonce
    let nonceSet := cache tx.fromAddr
    if tx.nonce ∈ nonceSet then
      (⟨false, some "Nonce already used"⟩, cache)
    else if tx.nonce < currentNonce then
      (⟨false, some "Nonce too low - transaction replay prevented"⟩, cache)
    else if tx.nonce > currentNonce + MAX_NONCE_GAP then
      (⟨false, some "Nonce gap too large"⟩, cache)
    else if nonceSet.length ≥ MAX_PENDING_NONCES then
      (⟨false, some "Too many pending transactions"⟩, cache)
    else if tx.nonce ≠ currentNonce + nonceSet.length then
      (⟨false, some "Invalid nonce sequence"⟩, cache)
    else
      (⟨true, none⟩, fun a => if a = tx.fromAddr then tx.nonce :: nonceSet else cache a)

end NonceValidator

/-! ## validation_rules.ts: GasValidator -/

namespace GasValidator

/-- `GAS_LIMITS` from validation_rules.ts (the fields the gas rule reads). -/
def BASE_TX : Int := 21000
def CONTRACT_CREATION : Int := 53000
def ZERO_BYTE : Int := 4
def NON_ZERO_BYTE : Int := 68
def MAX_GAS_LIMIT : Int := 15000000
def MIN_GAS_LIMIT : Int := 5000
def MAX_GAS_PRICE : Int := 10000000000000
def MIN_GAS_PRICE : Int := 1000000000

/-- `GasValidator.estimateGasUsage`: base cost, plus the contract-creation
cost when `to` is falsy (the empty string), plus per-byte data costs
(the hex pair `00` is a zero byte, anything else a non-zero byte). -/
def estimateGasUsage (tx : Transaction) : Int :=
  BASE_TX
    + (if tx.toAddr = "" then CONTRACT_CREATION else 0)
    + (tx.data.countP (fun b => b = 0)) * ZERO_BYTE
    + (tx.data.countP (fun b => ¬ b = 0)) * NON_ZERO_BYTE

/-- `GasValidator.validate` from validation_rules.ts.  The format regexes
(`/^[0-9]+$/` on `toString()`) accept exactly the nonnegative integers. -/
def validate (env : StateEnv) (tx : Transaction) : ValidationResult :=
  if tx.gasPrice < 0 then
    ⟨false, some "Invalid gas price format"⟩
  else if tx.gasLimit < 0 then
    ⟨false, some "Invalid gas limit format"⟩
  else if ¬ (MIN_GAS_PRICE ≤ tx.gasPrice ∧ tx.gasPrice ≤ MAX_GAS_PRICE) then
    ⟨false, some "Invalid gas price"⟩
  else if tx.gasLimit > env.getNetworkState.blockGasLimit ∨ tx.gasLimit > MAX_GAS_LIMIT then
    ⟨false, some "Gas limit exceeds maximum"⟩
  else if tx.gasLimit < MIN_GAS_LIMIT then
    ⟨false, some "Gas limit below minimum"⟩
  else if tx.gasLimit < estimateGasUsage tx then
    ⟨false, some "Gas limit too low"⟩
  else
    ⟨true, none⟩

end GasValidator

/-! ## block_validator.ts: BlockValidator -/

namespace BlockValidator

/-- `BlockValidator.calculateBlockHash`: `JSON.stringify` the header and
hash the resulting string with sha256.  The hash function itself is
cryptographic and is taken as a parameter `hashFn`; serialization
faithfully follows `JSON.stringify`, which throws on the header's
`bigint` fields. -/
def calculateBlockHash (hashFn : Json → String) (block : BlockData) :
    Except String String :=
  match jsonStringify (headerToJs block.header) with
  | none => .error "Do not know how to serialize a BigInt"
  | some j => .ok (hashFn j)

/-- `BlockValidator.validateBlockStructure`: with a well-typed
`BlockData` the `!block || !block.header || !block.body` test and the
required-field loop always pass (objects are truthy and all four fields
are present), so the check never throws. -/
def validateBlockStructure (_block : BlockData) : Except String Unit :=
  .ok ()

/-- `BlockValidator.validateBlockIntegrity`: recompute the block hash and
compare with the stated hash; the per-transaction check `validateTransaction`
is an empty stub and never throws. -/
def validateBlockIntegrity (hashFn : Json → String) (block : BlockData) :
    Except String Unit :=
  match calculateBlockHash hashFn block with
  | .error e => .error e
  | .ok calculated =>
    if calculated ≠ block.hash then .error "Invalid block hash" else .ok ()

/-- The body of the `try` block in `BlockValidator.validateBlock`:
structure check, integrity check, then the consensus call.  The
`ConsensusManager` class has no `validateBlockConsensus` method, so that
call would itself throw a `TypeError`; it is modelled as a thrown error
(the point is unreachable anyway because the integrity check throws first). -/
def validateBlockInner (hashFn : Json → String) (block : BlockData) :
    Except String Unit := do
  let _ ← validateBlockStructure block
  let _ ← validateBlockIntegrity hashFn block
  .error "this.consensusManager.validateBlockConsensus is not a function"

/-- `BlockValidator.validateBlock`: the whole pipeline runs inside
`try`/`catch`; any thrown error is converted into
`{ isValid: false, error: error.message }`. -/
def validateBlock (hashFn : Json → String) (block : BlockData) : ValidationResult :=
  match validateBlockInner hashFn block with
  | .ok _ => ⟨true, none⟩
  | .error e => ⟨false, some e⟩

end BlockValidator

/-! ## consensus_manager.ts: ConsensusManager -/

namespace ConsensusManager

/-- `ConsensusManager.isValidTimestamp`: the timestamp must lie within
15 seconds of `now` (`Date.now()` at validation time). -/
def isValidTimestamp (now ts : Int) : Bool :=
  decide (ts ≤ now + 15000) && decide (ts ≥ now - 15000)

/-- `ConsensusManager.isValidDifficulty`: within a 1% tolerance of the
network difficulty; `bigint` division truncates toward zero (`Int.div`). -/
def isValidDifficulty (env : StateEnv) (difficulty : Int) : Bool :=
  let networkDifficulty := env.getNetworkDifficulty
  let tolerance := Int.tdiv networkDifficulty 100
  decide (networkDifficulty - tolerance ≤ difficulty) &&
    decide (difficulty ≤ networkDifficulty + tolerance)

/-- `ConsensusManager.validateBlock`: `createConsensusContext` runs
BEFORE the `try` block, so a missing parent throws
`Parent block not found` out of `validateBlock` (modelled as
`Except.error`); inside the `try`, the header checks run in order
timestamp → difficulty → parent hash, each throwing a specific message
that the `catch` converts to `{ isValid: false, error }`.  After the
header checks, `validateBlockBody` calls `validateUncles`, which
iterates `block.uncles` — a field that does not exist on `BlockData`
(nor on the spec's Block shape), so the iteration throws a `TypeError`
that the `catch` also converts. -/
def validateBlock (env : StateEnv) (now : Int) (block : BlockData) :
    Except String ValidationResult :=
  match env.getBlock block.header.parentHash with
  | none => .error "Parent block not found"
  | some _ =>
    .ok (
      if ¬ isValidTimestamp now block.header.timestamp then
        ⟨false, some "Invalid block timestamp"⟩
      else if ¬ isValidDifficulty env block.header.difficulty then
        ⟨false, some "Invalid block difficulty"⟩
      else if (env.getBlock block.header.parentHash).isNone then
        ⟨false, some "Invalid parent hash"⟩
      else
        ⟨false, some "block.uncles is not iterable"⟩)

end ConsensusManager

/-! ## chain_manager.ts: ForkDetector and ChainManager -/

/-- `ForkData` from network/types. -/
structure ForkData where
  startBlock : BlockData
  blocks : List BlockData
  totalDifficulty : Int
  isFork : Bool
  deriving Repr, DecidableEq

/-- `ChainState` from network/types. -/
structure ChainState where
  lastBlock : BlockData
  height : Int
  totalDifficulty : Int
  forks : List ForkData
  deriving Repr, DecidableEq

namespace ChainManager

/-- `ForkDetector.detectFork`: a fork when the parent is unknown, or when
a different block already occupies the canonical slot at this height. -/
def detectFork (env : StateEnv) (block : BlockData) : ForkData :=
  match env.getBlock block.header.parentHash with
  | none =>
    { startBlock := block, blocks := [block],
      totalDifficulty := block.header.difficulty, isFork := true }
  | some parentBlock =>
    match env.getBlockAtHeight block.header.number with
    | some canonicalBlock =>
      if canonicalBlock.hash ≠ block.hash then
        { startBlock := parentBlock, blocks := [block],
          totalDifficulty := block.header.difficulty, isFork := true }
      else
        { startBlock := block, blocks := [], totalDifficulty := 0, isFork := false }
    | none =>
      { startBlock := block, blocks := [], totalDifficulty := 0, isFork := false }

/-- `ChainManager.resolveFork`: the method body contains only a comment
describing the intended difficulty comparison and reorganization; it
performs no state change at all. -/
def resolveFork (_forkData : ForkData) (s : ChainState) : ChainState :=
  s

/-- `ChainManager.updateChainState`: unconditionally makes the incoming
block the canonical tip and accumulates its difficulty. -/
def updateChainState (block : BlockData) (s : ChainState) : ChainState :=
  { lastBlock := block, height := block.header.number,
    totalDifficulty := s.totalDifficulty + block.header.difficulty,
    forks := s.forks }

/-- `ChainManager.handlePotentialFork`: detect, then resolve when a fork
was found (emitting `fork:resolved`). -/
def handlePotentialFork (env : StateEnv) (block : BlockData) (s : ChainState) :
    ChainState :=
  let forkData := detectFork env block
  if forkData.isFork then resolveFork forkData s else s

/-- `ChainManager.processNewBlock`: on a valid block, update the chain
state and then handle a potential fork; the block validator's verdict is
passed in as `valid` (the result of `blockValidator.validateBlock`). -/
def processNewBlock (valid : Bool) (env : StateEnv) (block : BlockData)
    (s : ChainState) : ChainState :=
  if ¬ valid then s
  else handlePotentialFork env block (updateChainState block s)

end ChainManager

/-! ## finality_tracker.ts: FinalityTracker -/

/-- The `status` field of a `FinalityState` record. -/
inductive FinStatus where
  | pending
  | finalized
  deriving Repr, DecidableEq

/-- `FinalityState` from finality_tracker.ts. -/
structure FinalityState where
  block : BlockData
  confirmations : Int
  firstSeen : Int
  lastUpdated : Int
  status : FinStatus
  deriving Repr, DecidableEq

namespace FinalityTracker

/-- The `finalityCache` map, keyed by block hash. -/
def FinalityCache := String → Option FinalityState

/-- The empty finality cache. -/
def emptyCache : FinalityCache := fun _ => none

/-- `FinalityTracker.countConfirmations`:
`currentBlock.header.number - block.header.number`; `none` models a
thrown `getLatestBlock` failure. -/
def countConfirmations (env : StateEnv) (block : BlockData) : Option Int :=
  match env.getLatestBlock with
  | none => none
  | some currentBlock => some (currentBlock.header.number - block.header.number)

/-- `FinalityTracker.updateFinalityState`: recompute the confirmation
count and promote to `finalized` when it reaches the threshold; the
status is never written with any value other than `finalized`.  When
`countConfirmations` throws, the `catch` only emits an event and leaves
the cache as it is. -/
def updateFinalityState (env : StateEnv) (threshold now : Int)
    (blockHash : String) (cache : FinalityCache) : FinalityCache :=
  match cache blockHash with
  | none => cache
  | some state =>
    match countConfirmations env state.block with
    | none => cache
    | some confirmations =>
      let state' : FinalityState :=
        { state with
          confirmations := confirmations
          lastUpdated := now
          status := if confirmations ≥ threshold then .finalized else state.status }
      fun k => if k = blockHash then some state' else cache k

/-- `FinalityTracker.trackBlockFinality`: unconditionally installs a
fresh record with `status: 'pending'` and `confirmations: 0` for the
block hash (overwriting any existing record), then runs
`updateFinalityState` on it. -/
def trackBlockFinality (env : StateEnv) (threshold now : Int)
    (block : BlockData) (cache : FinalityCache) : FinalityCache :=
  let state : FinalityState :=
    { block := block, confirmations := 0, firstSeen := now,
      lastUpdated := now, status := .pending }
  let cache' : FinalityCache :=
    fun k => if k = block.hash then some state else cache k
  updateFinalityState env threshold now block.hash cache'

end FinalityTracker

/-! ## transaction_pool.ts: TransactionPool -/

/-- `PoolTransaction` from transaction_pool.ts; its `status` is the
string `'pending'` or `'queued'`. -/
structure PoolTransaction where
  transaction : Transaction
  addedAt : Int
  gasPrice : Int
  nonce : Int
  status : String
  deriving Repr, DecidableEq

/-- `TransactionPoolConfig` from transaction_pool.ts (the fields the
embedded operations read). -/
structure TransactionPoolConfig where
  maxPendingTransactions : Nat
  maxQueuedTransactions : Nat
  minGasPrice : Int
  transactionTimeout : Int
  deriving Repr, DecidableEq

/-- An insertion-ordered `Map<string, PoolTransaction>`. -/
abbrev PoolMap := List (String × PoolTransaction)

/-- JavaScript `Map.set`: replace in place when the key is present,
append otherwise. -/
def mapSet (m : PoolMap) (k : String) (v : PoolTransaction) : PoolMap :=
  if m.any (fun p => p.1 = k) then
    m.map (fun p => if p.1 = k then (k, v) else p)
  else
    m ++ [(k, v)]

/-- JavaScript `Map.delete`. -/
def mapDelete (m : PoolMap) (k : String) : PoolMap :=
  m.filter (fun p => ¬ p.1 = k)

/-- The two tiers of the pool (`pendingTransactions`, `queuedTransactions`). -/
structure PoolState where
  pending : PoolMap
  queued : PoolMap
  deriving Repr, DecidableEq

/-- The empty pool. -/
def PoolState.empty : PoolState := ⟨[], []⟩

namespace TransactionPool

/-- `TransactionPool.validateBasicFields`: hash/from/to must be truthy
(non-empty strings), `value ≥ 0`, `gasPrice ≥ 0`, `gasLimit ≥ 21000`. -/
def validateBasicFields (tx : Transaction) : Bool :=
  ¬ (tx.hash = "") && ¬ (tx.fromAddr = "") && ¬ (tx.toAddr = "") &&
    decide (0 ≤ tx.value) && decide (0 ≤ tx.gasPrice) && decide (21000 ≤ tx.gasLimit)

/-- `TransactionPool.validateNonce`: `tx.nonce >= accountState.nonce`. -/
def validateNonce (env : StateEnv) (tx : Transaction) : Bool :=
  decide ((env.getAccountState tx.fromAddr).nonce ≤ tx.nonce)

/-- `TransactionPool.validateBalance`:
`accountState.balance >= value + gasLimit * gasPrice`. -/
def validateBalance (env : StateEnv) (tx : Transaction) : Bool :=
  decide (tx.value + tx.gasLimit * tx.gasPrice ≤ (env.getAccountState tx.fromAddr).balance)

/-- `TransactionPool.validateTransaction`: basic fields, then nonce,
then balance (short-circuiting). -/
def validateTransaction (env : StateEnv) (tx : Transaction) : Bool :=
  validateBasicFields tx && validateNonce env tx && validateBalance env tx

/-- `TransactionPool.canAddToPending`: room below
`maxPendingTransactions` and gas price at least `minGasPrice`. -/
def canAddToPending (cfg : TransactionPoolConfig) (pending : PoolMap)
    (tx : PoolTransaction) : Bool :=
  ¬ (pending.length ≥ cfg.maxPendingTransactions) && ¬ (tx.gasPrice < cfg.minGasPrice)

/-- `TransactionPool.cleanExpiredTransactions`: drop every entry with
`now - addedAt > transactionTimeout` from both tiers. -/
def cleanExpiredTransactions (now : Int) (cfg : TransactionPoolConfig)
    (s : PoolState) : PoolState :=
  { pending := s.pending.filter (fun p => ¬ (now - p.2.addedAt > cfg.transactionTimeout))
    queued := s.queued.filter (fun p => ¬ (now - p.2.addedAt > cfg.transactionTimeout)) }

/-- One step of the promotion loop in
`TransactionPool.promoteQueuedTransactions`: when the transaction can
enter `pending`, it is deleted from `queued` and inserted into `pending`. -/
def promoteStep (cfg : TransactionPoolConfig) (s : PoolState)
    (tx : PoolTransaction) : PoolState :=
  if canAddToPending cfg s.pending tx then
    { pending := mapSet s.pending tx.transaction.hash tx
      queued := mapDelete s.queued tx.transaction.hash }
  else s

/-- The stable descending-by-gas-price sort performed by
`Array.sort((a, b) => Number(b.gasPrice - a.gasPrice))`: insert each
element before the first strictly cheaper one. -/
def insertDesc (x : PoolTransaction) : List PoolTransaction → List PoolTransaction
  | [] => [x]
  | y :: ys => if y.gasPrice < x.gasPrice then x :: y :: ys else y :: insertDesc x ys

/-- Sort the queued values by descending gas price (stable). -/
def sortDesc (l : List PoolTransaction) : List PoolTransaction :=
  l.foldr insertDesc []

/-- `TransactionPool.promoteQueuedTransactions`: iterate the queued
values in descending gas-price order, promoting while capacity allows. -/
def promoteQueuedTransactions (cfg : TransactionPoolConfig) (s : PoolState) :
    PoolState :=
  (sortDesc (s.queued.map Prod.snd)).foldl (promoteStep cfg) s

/-- `TransactionPool.updatePool` (the maintenance cycle): clean expired
entries, promote queued entries, recompute metrics (metrics do not touch
the two maps). -/
def updatePool (now : Int) (cfg : TransactionPoolConfig) (s : PoolState) :
    PoolState :=
  promoteQueuedTransactions cfg (cleanExpiredTransactions now cfg s)

/-- `TransactionPool.prepareTransaction`. -/
def prepareTransaction (now : Int) (tx : Transaction) : PoolTransaction :=
  { transaction := tx, addedAt := now, gasPrice := tx.gasPrice,
    nonce := tx.nonce, status := "pending" }

/-- `TransactionPool.processTransaction`: into `pending` when possible,
otherwise into `queued`. -/
def processTransaction (cfg : TransactionPoolConfig) (s : PoolState)
    (tx : PoolTransaction) : PoolState :=
  if canAddToPending cfg s.pending tx then
    { s with pending := mapSet s.pending tx.transaction.hash tx }
  else
    { s with queued := mapSet s.queued tx.transaction.hash tx }

/-- `AddTransactionResult` from transaction_pool.ts. -/
structure AddTransactionResult where
  success : Bool
  txHash : Option String := none
  error : Option String := none
  deriving Repr, DecidableEq

/-- `TransactionPool.addTransaction`: validate, then place the prepared
transaction; no maintenance cycle runs on this path and no failure other
than `Transaction validation failed` is produced. -/
def addTransaction (env : StateEnv) (now : Int) (cfg : TransactionPoolConfig)
    (s : PoolState) (tx : Transaction) : AddTransactionResult × PoolState :=
  if ¬ validateTransaction env tx then
    (⟨false, none, some "Transaction validation failed"⟩, s)
  else
    (⟨true, some tx.hash, none⟩, processTransaction cfg s (prepareTransaction now tx))

/-- `TransactionPool.loadPersistedTransactions`: each deserialized entry
is re-validated and, when valid, written into the corresponding tier —
with no capacity check on either tier. -/
def loadPersistedTransactions (env : StateEnv)
    (loadedPending loadedQueued : List (String × PoolTransaction))
    (s : PoolState) : PoolState :=
  let pending := loadedPending.foldl
    (fun m p => if validateTransaction env p.2.transaction then mapSet m p.1 p.2 else m)
    s.pending
  let queued := loadedQueued.foldl
    (fun m p => if validateTransaction env p.2.transaction then mapSet m p.1 p.2 else m)
    s.queued
  { pending := pending, queued := queued }

end TransactionPool

/-! ## Transaction persistence: serialize/deserialize the pool snapshot -/

namespace TransactionPersistence

/-- The JavaScript runtime object behind a `PoolTransaction` value:
`gasPrice` is `bigint`, the wrapped transaction carries its own
`bigint` fields. -/
def poolTxToJs (p : PoolTransaction) : JsValue :=
  .obj [("transaction", txToJs p.transaction), ("addedAt", .num p.addedAt),
        ("gasPrice", .big p.gasPrice), ("nonce", .num p.nonce),
        ("status", .str p.status)]

/-- `TransactionPersistence.serializeTransactions`:
`JSON.stringify({ pending: Array.from(pending.entries()), queued: ...,
timestamp: Date.now() })`; each map entry is the two-element array
`[hash, poolTransaction]`.  `none` models the `TypeError` thrown by
`JSON.stringify` on a `bigint`. -/
def serializeTransactions (pending queued : List (String × PoolTransaction))
    (now : Int) : Option Json :=
  jsonStringify (.obj
    [("pending", .arr (pending.map fun p => .arr [.str p.1, poolTxToJs p.2])),
     ("queued", .arr (queued.map fun p => .arr [.str p.1, poolTxToJs p.2])),
     ("timestamp", .num now)])

end TransactionPersistence

mutual

/-- `JSON.parse` of a JSON document back to a runtime value (the parse
never produces a `bigint` or a `Buffer`). -/
def jsonParse : Json → JsValue
  | .str s => .str s
  | .num n => .num n
  | .bool b => .bool b
  | .arr xs => .arr (jsonParseList xs)
  | .obj fs => .obj (jsonParseFields fs)

/-- Element-wise parse of a JSON array. -/
def jsonParseList : List Json → List JsValue
  | [] => []
  | x :: xs => jsonParse x :: jsonParseList xs

/-- Field-wise parse of a JSON object. -/
def jsonParseFields : List (String × Json) → List (String × JsValue)
  | [] => []
  | (k, v) :: fs => (k, jsonParse v) :: jsonParseFields fs

end

namespace TransactionPersistence

/-- Read one field of a parsed JSON object (JavaScript property access). -/
def getField (j : Json) (k : String) : Option Json :=
  match j with
  | .obj fs => (fs.find? (fun f => f.1 = k)).map Prod.snd
  | _ => none

/-- `new Map(entries)` over a parsed entry array: each `[key, value]`
pair becomes a map binding. -/
def entriesToMap (j : Json) : List (String × JsValue) :=
  match j with
  | .arr entries => entries.foldl
      (fun acc e => match e with
        | .arr [.str k, v] => acc ++ [(k, jsonParse v)]
        | _ => acc)
      []
  | _ => []

/-- `TransactionPersistence.deserializeTransactions`:
`{ pending: new Map(parsed.pending), queued: new Map(parsed.queued) }`. -/
def deserializeTransactions (j : Json) :
    List (String × JsValue) × List (String × JsValue) :=
  (((getField j "pending").map entriesToMap).getD [],
   ((getField j "queued").map entriesToMap).getD [])

end TransactionPersistence

/-! ## Concrete sample inputs used by the closed theorems -/

/-- A minimal header for sample blocks. -/
def sampleHeader (number : Int) (parentHash : String) (difficulty timestamp : Int) :
    BlockHeader :=
  { number := number, parentHash := parentHash, timestamp := timestamp, miner := "m",
    stateRoot := "sr", transactionsRoot := "tr", receiptsRoot := "rr",
    difficulty := difficulty, totalDifficulty := 0, size := 0, gasLimit := 0,
    gasUsed := 0, extraData := [] }

/-- A sample block around a header. -/
def mkBlock (hash : String) (h : BlockHeader) : BlockData :=
  ⟨hash, h, ⟨[], []⟩, []⟩

/-- Parent block at height 9. -/
def blockP : BlockData := mkBlock "p" (sampleHeader 9 "pp" 50 0)

/-- Canonical tip at height 10; its branch has cumulative weight 105. -/
def blockA : BlockData := mkBlock "a" (sampleHeader 10 "p" 105 0)

/-- Competing block at height 10 with a different hash; its branch has
cumulative weight 100. -/
def blockB : BlockData := mkBlock "b" (sampleHeader 10 "p" 100 0)

/-- State oracle for the fork scenario: the parent `"p"` is known and
the canonical slot at height 10 is occupied by `blockA`. -/
def envFork : StateEnv :=
  { getAccountState := fun _ => ⟨0, 0⟩, getNetworkState := ⟨30000000⟩,
    getNetworkDifficulty := 100,
    getBlock := fun h => if h = "p" then some blockP else none,
    getBlockAtHeight := fun n => if n = 10 then some blockA else none,
    getLatestBlock := some blockA }

/-- Chain state whose canonical tip is the weight-105 block. -/
def stateA : ChainState := ⟨blockA, 10, 105, []⟩

/-- State oracle for which every lookup misses / throws. -/
def envNone : StateEnv :=
  { getAccountState := fun _ => ⟨0, 0⟩, getNetworkState := ⟨0⟩,
    getNetworkDifficulty := 0, getBlock := fun _ => none,
    getBlockAtHeight := fun _ => none, getLatestBlock := none }

/-! ## C1 -/

/-- C1: fork resolution is claimed to make the strictly heavier branch
canonical.  In the code `ChainManager.resolveFork` has an empty body, so
it is the identity on the chain state: with the canonical tip on the
weight-105 branch and a detected fork carrying the weight-100 branch,
nothing changes — and conversely `processNewBlock` makes ANY valid block
the tip via `updateChainState` before fork handling, so processing the
weight-100 block dethrones the weight-105 tip with no weight comparison. -/
theorem resolveFork_noop_ignores_weight :
    (∀ fd s, ChainManager.resolveFork fd s = s)
    ∧ (ChainManager.detectFork envFork blockB).isFork = true
    ∧ (ChainManager.detectFork envFork blockB).totalDifficulty = 100
    ∧ stateA.totalDifficulty = 105
    ∧ ChainManager.handlePotentialFork envFork blockB stateA = stateA
    ∧ (ChainManager.processNewBlock true envFork blockB stateA).lastBlock.hash = "b" :=
  ⟨fun _ _ => rfl, rfl, rfl, rfl, rfl, rfl⟩

/-! ## C6 -/

/-- C6: a hash mismatch is claimed to produce an integrity-reason
failure.  In fact `calculateBlockHash` serializes the header with
`JSON.stringify`, whose `bigint` fields (`difficulty`, `totalDifficulty`,
`gasLimit`, `gasUsed`) make it throw, so for EVERY block — whatever its
hash and other fields — `validateBlock` returns an invalid result whose
reason is the serialization TypeError, and the recomputed-versus-stated
comparison is never reached. -/
theorem validateBlock_always_bigint_error (hashFn : Json → String) (block : BlockData) :
    BlockValidator.validateBlock hashFn block =
      ⟨false, some "Do not know how to serialize a BigInt"⟩ :=
  rfl

/-! ## C10 -/

/-- C10: `BlockValidator.validateBlock` is total — the try/catch wrapper
always produces a `ValidationResult`; a successful run yields
`{ isValid: true }`, and every internal failure is mapped to
`{ isValid: false, error: message }` with the thrown message. -/
theorem validateBlock_total (hashFn : Json → String) (block : BlockData) :
    (BlockValidator.validateBlockInner hashFn block = .ok () ∧
      BlockValidator.validateBlock hashFn block = ⟨true, none⟩)
    ∨ (∃ e, BlockValidator.validateBlockInner hashFn block = .error e ∧
        BlockValidator.validateBlock hashFn block = ⟨false, some e⟩) := by
  unfold BlockValidator.validateBlock
  cases h : BlockValidator.validateBlockInner hashFn block with
  | ok u => cases u; exact Or.inl ⟨rfl, rfl⟩
  | error e => exact Or.inr ⟨e, rfl, rfl⟩

/-- A minimal well-formed transaction used as sample input (non-empty
hash/from/to, nonce 0, value 0, gasPrice 0, gasLimit 21000). -/
def mkTx (hash : String) : Transaction :=
  ⟨hash, 0, "a", "b", 0, 0, 21000, [], 27, "r", "s"⟩

/-- A sample pool entry wrapping `mkTx "t1"`. -/
def samplePoolTx : PoolTransaction :=
  TransactionPool.prepareTransaction 0 (mkTx "t1")

/-! ## C3 -/

/-- C3: the pool snapshot is claimed to round-trip losslessly through
serialize/deserialize.  In fact `serializeTransactions` feeds the entry
lists to `JSON.stringify`, and every `PoolTransaction` contains `bigint`
fields (`gasPrice`, and `value`/`gasPrice`/`gasLimit` of the wrapped
transaction), so serialization throws a TypeError on EVERY pool that
holds at least one entry; only the empty snapshot serializes, and that
one does round-trip to empty entry maps. -/
theorem serializeTransactions_fails_on_nonempty :
    (∀ pending queued now, (pending = [] ∧ queued = [])
        ∨ TransactionPersistence.serializeTransactions pending queued now = none)
    ∧ TransactionPersistence.serializeTransactions [("t1", samplePoolTx)] [] 0 = none
    ∧ (TransactionPersistence.serializeTransactions [] [] 0).map
        TransactionPersistence.deserializeTransactions = some ([], []) := by
  refine ⟨?_, rfl, rfl⟩
  intro pending queued now
  match pending, queued with
  | [], [] => exact Or.inl ⟨rfl, rfl⟩
  | [], q :: qs => exact Or.inr rfl
  | p :: ps, _ => exact Or.inr rfl

/-! ## C2 -/

/-- C2: the nonce rule.  (i) `tx.nonce < account.nonce` is always
rejected (by the format, duplicate or replay check); (ii)
`tx.nonce == account.nonce` with no reserved nonces outstanding for the
sender is accepted; (iii) `tx.nonce ≥ account.nonce + MAX_NONCE_GAP`
(100) is always rejected — a gap strictly above 100 by the gap check,
a gap of exactly 100 by the strict-sequence check, whose expected nonce
is at most `account.nonce + 9` because the reserved set is capped at
`MAX_PENDING_NONCES = 10`. -/
theorem nonce_rule_correct :
    NonceValidator.MAX_NONCE_GAP = 100
    ∧ (∀ env cache tx, tx.nonce < (env.getAccountState tx.fromAddr).nonce →
        (NonceValidator.validate env cache tx).1.isValid = false)
    ∧ (∀ env cache tx,
        0 ≤ tx.nonce →
        tx.nonce = (env.getAccountState tx.fromAddr).nonce →
        cache tx.fromAddr = [] →
        (NonceValidator.validate env cache tx).1.isValid = true)
    ∧ (∀ env cache tx,
        (env.getAccountState tx.fromAddr).nonce + NonceValidator.MAX_NONCE_GAP ≤ tx.nonce →
        (NonceValidator.validate env cache tx).1.isValid = false) := by
  refine ⟨rfl, ?_, ?_, ?_⟩ <;> intro env cache tx
  · intro h
    simp only [NonceValidator.validate, NonceValidator.MAX_NONCE_GAP,
      NonceValidator.MAX_PENDING_NONCES]
    split_ifs <;> first | rfl | (exfalso; omega)
  · intro h0 heq hcache
    simp only [NonceValidator.validate, NonceValidator.MAX_NONCE_GAP,
      NonceValidator.MAX_PENDING_NONCES, hcache, List.length_nil,
      List.not_mem_nil]
    split_ifs <;> first | rfl | (exfalso; omega) | (exfalso; simp_all)
  · intro h
    simp only [NonceValidator.MAX_NONCE_GAP] at h
    simp only [NonceValidator.validate, NonceValidator.MAX_NONCE_GAP,
      NonceValidator.MAX_PENDING_NONCES]
    split_ifs with h1 h2 h3 h4 h5 h6 <;> try rfl
    exfalso
    push_neg at h4 h6
    omega

/-- State oracle whose every account has nonce 5 and a large balance. -/
def envNonce : StateEnv :=
  { getAccountState := fun _ => ⟨5, 1000000000000000⟩, getNetworkState := ⟨30000000⟩,
    getNetworkDifficulty := 0, getBlock := fun _ => none,
    getBlockAtHeight := fun _ => none, getLatestBlock := none }

/-- A sample transaction with the given nonce. -/
def txNonce (n : Int) : Transaction :=
  ⟨"tn", n, "alice", "bob", 0, 0, 21000, [], 27, "r", "s"⟩

/-- Witness for C2 at account nonce 5: nonce 3 is rejected, nonce 5 is
accepted on an empty reserved set, nonce 105 is rejected. -/
theorem nonce_rule_correct_witness :
    (NonceValidator.validate envNonce NonceValidator.emptyCache (txNonce 3)).1.isValid = false
    ∧ (NonceValidator.validate envNonce NonceValidator.emptyCache (txNonce 5)).1.isValid = true
    ∧ (NonceValidator.validate envNonce NonceValidator.emptyCache (txNonce 105)).1.isValid = false :=
  ⟨nonce_rule_correct.2.1 envNonce NonceValidator.emptyCache (txNonce 3) (by decide),
   nonce_rule_correct.2.2.1 envNonce NonceValidator.emptyCache (txNonce 5)
     (by decide) (by decide) rfl,
   nonce_rule_correct.2.2.2 envNonce NonceValidator.emptyCache (txNonce 105) (by decide)⟩

/-! ## C8 -/

/-- C8: every transaction the gas rule accepts has `gasLimit ≥ 21000`
(the estimate starts from `BASE_TX = 21000` and only grows), and
`gasLimit` within `[MIN_GAS_LIMIT, min(MAX_GAS_LIMIT, blockGasLimit)]`,
and `gasPrice` within `[MIN_GAS_PRICE, MAX_GAS_PRICE]`. -/
theorem gas_rule_bounds (env : StateEnv) (tx : Transaction)
    (h : (GasValidator.validate env tx).isValid = true) :
    21000 ≤ tx.gasLimit
    ∧ GasValidator.MIN_GAS_LIMIT ≤ tx.gasLimit
    ∧ tx.gasLimit ≤ min GasValidator.MAX_GAS_LIMIT env.getNetworkState.blockGasLimit
    ∧ GasValidator.MIN_GAS_PRICE ≤ tx.gasPrice
    ∧ tx.gasPrice ≤ GasValidator.MAX_GAS_PRICE := by
  have hest : GasValidator.BASE_TX ≤ GasValidator.estimateGasUsage tx := by
    unfold GasValidator.estimateGasUsage GasValidator.BASE_TX
      GasValidator.CONTRACT_CREATION GasValidator.ZERO_BYTE GasValidator.NON_ZERO_BYTE
    split_ifs <;> omega
  revert h
  unfold GasValidator.validate
  split_ifs with h1 h2 h3 h4 h5 h6 <;> intro h
  all_goals try exact absurd h (by decide)
  push_neg at h3 h4 h5 h6
  have hg : GasValidator.BASE_TX ≤ tx.gasLimit := le_trans hest h6
  simp only [GasValidator.BASE_TX, GasValidator.MIN_GAS_LIMIT, GasValidator.MAX_GAS_LIMIT,
    GasValidator.MIN_GAS_PRICE, GasValidator.MAX_GAS_PRICE] at h3 h4 h5 hg ⊢
  omega

/-- A transaction the gas rule accepts: gasPrice exactly 1 Gwei,
gasLimit exactly the 21000 base cost, empty data, non-empty `to`. -/
def txGas : Transaction :=
  ⟨"tg", 0, "a", "b", 0, 1000000000, 21000, [], 27, "r", "s"⟩

/-- Witness for C8: the bounds hold for the concrete accepted
transaction `txGas` under `envFork` (block gas limit 30000000). -/
theorem gas_rule_bounds_witness :
    21000 ≤ txGas.gasLimit
    ∧ GasValidator.MIN_GAS_LIMIT ≤ txGas.gasLimit
    ∧ txGas.gasLimit ≤ min GasValidator.MAX_GAS_LIMIT envFork.getNetworkState.blockGasLimit
    ∧ GasValidator.MIN_GAS_PRICE ≤ txGas.gasPrice
    ∧ txGas.gasPrice ≤ GasValidator.MAX_GAS_PRICE :=
  gas_rule_bounds envFork txGas (by decide)

/-! ## C7 -/

/-- A block whose timestamp (100000) is far outside the ±15s window
around `now = 0`; its parent hash is `"p"`. -/
def blockBadTs : BlockData := mkBlock "bt" (sampleHeader 3 "p" 100 100000)

/-- C7 counterexample: the claim says every block with an out-of-window
timestamp fails validation with a timestamp reason.  For a block whose
parent is unknown, `createConsensusContext` runs BEFORE the try/catch
and throws `Parent block not found`, so `validateBlock` produces no
`ValidationResult` at all — the failure reason is the parent, not the
timestamp, even though the timestamp is out of the window. -/
theorem timestamp_claim_counterexample :
    ConsensusManager.isValidTimestamp 0 blockBadTs.header.timestamp = false
    ∧ ConsensusManager.validateBlock envNone 0 blockBadTs =
        .error "Parent block not found" :=
  ⟨rfl, rfl⟩

/-- C7 (amended): for every block whose parent lookup succeeds, an
out-of-window timestamp makes `validateBlock` return
`{ isValid: false, error: 'Invalid block timestamp' }` (wrapped in
`.ok` since no exception escapes), and every in-window timestamp passes
the timestamp check; when the parent is missing the exception
`Parent block not found` propagates instead. -/
theorem timestamp_rule_correct :
    (∀ env now block, (env.getBlock block.header.parentHash).isSome = true →
        (block.header.timestamp > now + 15000 ∨ block.header.timestamp < now - 15000) →
        ConsensusManager.validateBlock env now block =
          .ok ⟨false, some "Invalid block timestamp"⟩)
    ∧ (∀ now ts, now - 15000 ≤ ts → ts ≤ now + 15000 →
        ConsensusManager.isValidTimestamp now ts = true) := by
  constructor
  · intro env now block hsome hts
    unfold ConsensusManager.validateBlock
    cases hp : env.getBlock block.header.parentHash with
    | none => rw [hp] at hsome; exact absurd hsome (by decide)
    | some parent =>
      have hbad : ConsensusManager.isValidTimestamp now block.header.timestamp = false := by
        unfold ConsensusManager.isValidTimestamp
        rcases hts with h | h <;> simp [decide_eq_true_eq] <;> omega
      rw [if_pos]
      rw [hbad]
      decide
  · intro now ts h1 h2
    unfold ConsensusManager.isValidTimestamp
    simp only [Bool.and_eq_true, decide_eq_true_eq]
    omega

/-- Witness for C7 (amended): under `envFork` the parent `"p"` of
`blockBadTs` is known, and validation fails with the timestamp reason;
timestamp 1000 at `now = 0` passes the check. -/
theorem timestamp_rule_correct_witness :
    ConsensusManager.validateBlock envFork 0 blockBadTs =
      .ok ⟨false, some "Invalid block timestamp"⟩
    ∧ ConsensusManager.isValidTimestamp 0 1000 = true :=
  ⟨timestamp_rule_correct.1 envFork 0 blockBadTs (by decide) (Or.inl (by decide)),
   timestamp_rule_correct.2 0 1000 (by decide) (by decide)⟩

/-! ## C5 -/

/-- A tracked block at height 0. -/
def blockLow : BlockData := mkBlock "b" (sampleHeader 0 "g" 1 0)

/-- State oracle whose latest block sits at the given height. -/
def envLatest (n : Int) : StateEnv :=
  { getAccountState := fun _ => ⟨0, 0⟩, getNetworkState := ⟨30000000⟩,
    getNetworkDifficulty := 100, getBlock := fun _ => none,
    getBlockAtHeight := fun _ => none,
    getLatestBlock := some (mkBlock "tip" (sampleHeader n "x" 1 0)) }

/-- C5 counterexample: with threshold 12, tracking `blockLow` while the
chain tip is at height 12 finalizes it; calling `trackBlockFinality`
again on the same block while the tip reports height 5 overwrites the
record with a fresh pending one that stays pending — the finalized
status was reverted by a tracker operation. -/
theorem finality_monotonic_counterexample :
    ((FinalityTracker.trackBlockFinality (envLatest 12) 12 0 blockLow
        FinalityTracker.emptyCache) "b").map (fun st => st.status)
      = some .finalized
    ∧ ((FinalityTracker.trackBlockFinality (envLatest 5) 12 1 blockLow
        (FinalityTracker.trackBlockFinality (envLatest 12) 12 0 blockLow
          FinalityTracker.emptyCache)) "b").map (fun st => st.status)
      = some .pending :=
  ⟨rfl, rfl⟩

/-- C5 (amended): `updateFinalityState` never reverts a finalized
record — it only ever writes `finalized` into the status field — and
fork-choice resolution (`resolveFork`, a no-op) touches no finality
record; monotonicity fails only for `trackBlockFinality`, which
overwrites an existing record with a fresh pending one. -/
theorem finality_update_monotonic :
    (∀ env threshold now blockHash cache h st,
        cache h = some st → st.status = .finalized →
        ∃ st', FinalityTracker.updateFinalityState env threshold now blockHash cache h
            = some st' ∧ st'.status = .finalized)
    ∧ (∀ fd s, ChainManager.resolveFork fd s = s) := by
  constructor
  · intro env threshold now blockHash cache h st hsome hfin
    by_cases hk : h = blockHash
    · subst hk
      cases hc : FinalityTracker.countConfirmations env st.block with
      | none =>
        exact ⟨st, by simp [FinalityTracker.updateFinalityState, hsome, hc], hfin⟩
      | some confirmations =>
        refine ⟨{ block := st.block, confirmations := confirmations,
                  firstSeen := st.firstSeen, lastUpdated := now,
                  status := if confirmations ≥ threshold then .finalized
                            else st.status }, ?_, ?_⟩
        · simp [FinalityTracker.updateFinalityState, hsome, hc]
        · by_cases hge : confirmations ≥ threshold <;> simp [hge, hfin]
    · cases hb : cache blockHash with
      | none =>
        exact ⟨st, by simp [FinalityTracker.updateFinalityState, hb, hsome], hfin⟩
      | some state =>
        cases hc : FinalityTracker.countConfirmations env state.block with
        | none =>
          exact ⟨st, by simp [FinalityTracker.updateFinalityState, hb, hc, hsome], hfin⟩
        | some confirmations =>
          exact ⟨st, by simp [FinalityTracker.updateFinalityState, hb, hc, hk, hsome], hfin⟩
  · intro fd s
    rfl

/-- A finalized record for `blockLow`. -/
def stFinal : FinalityState :=
  { block := blockLow, confirmations := 12, firstSeen := 0, lastUpdated := 0,
    status := .finalized }

/-- A cache holding the finalized record for hash `"b"`. -/
def cacheFinal : FinalityTracker.FinalityCache :=
  fun k => if k = "b" then some stFinal else none

/-- Witness for C5 (amended): updating the finality state of `"b"` under
a low chain tip leaves the record finalized. -/
theorem finality_update_monotonic_witness :
    ∃ st', FinalityTracker.updateFinalityState (envLatest 5) 12 3 "b" cacheFinal "b"
        = some st' ∧ st'.status = .finalized :=
  finality_update_monotonic.1 (envLatest 5) 12 3 "b" cacheFinal "b" stFinal rfl rfl

/-! ## C4 -/

/-- A `Map.set` grows the map by at most one entry. -/
theorem mapSet_length_le (m : PoolMap) (k : String) (v : PoolTransaction) :
    (mapSet m k v).length ≤ m.length + 1 := by
  unfold mapSet
  split <;> simp

/-- One promotion step keeps the pending tier within the capacity bound:
it only inserts when `canAddToPending` reports room. -/
theorem promoteStep_pending_le (cfg : TransactionPoolConfig) (s : PoolState)
    (tx : PoolTransaction)
    (hmax : s.pending.length ≤ cfg.maxPendingTransactions) :
    (TransactionPool.promoteStep cfg s tx).pending.length ≤ cfg.maxPendingTransactions := by
  unfold TransactionPool.promoteStep
  split
  case isTrue hcan =>
    have hlt : s.pending.length < cfg.maxPendingTransactions := by
      unfold TransactionPool.canAddToPending at hcan
      simp only [Bool.and_eq_true, decide_eq_true_eq] at hcan
      omega
    exact le_trans (mapSet_length_le s.pending tx.transaction.hash tx) (by omega)
  case isFalse hcan => exact hmax

/-- The whole promotion loop keeps the pending tier within the bound. -/
theorem foldl_promoteStep_le (cfg : TransactionPoolConfig)
    (l : List PoolTransaction) : ∀ s : PoolState,
    s.pending.length ≤ cfg.maxPendingTransactions →
    (l.foldl (TransactionPool.promoteStep cfg) s).pending.length
      ≤ cfg.maxPendingTransactions := by
  induction l with
  | nil => intro s hs; exact hs
  | cons x xs ih => intro s hs; exact ih _ (promoteStep_pending_le cfg s x hs)

/-- C4 (amended): a maintenance cycle preserves the capacity bound —
if the pending tier holds at most `maxPendingTransactions` entries when
`updatePool` starts, it still does when it completes (cleanup only
removes entries; promotion only inserts below capacity).  The bound is
not an invariant of all reachable states: restore-at-startup violates it
(see the counterexample). -/
theorem updatePool_preserves_pending_bound (now : Int) (cfg : TransactionPoolConfig)
    (s : PoolState) (h : s.pending.length ≤ cfg.maxPendingTransactions) :
    (TransactionPool.updatePool now cfg s).pending.length
      ≤ cfg.maxPendingTransactions := by
  unfold TransactionPool.updatePool TransactionPool.promoteQueuedTransactions
  apply foldl_promoteStep_le
  calc (TransactionPool.cleanExpiredTransactions now cfg s).pending.length
      ≤ s.pending.length := by
        unfold TransactionPool.cleanExpiredTransactions
        simpa using List.length_filter_le _ s.pending
    _ ≤ cfg.maxPendingTransactions := h

/-- State oracle whose every account has nonce 0 and a large balance, so
the pool-side validation accepts the sample transactions. -/
def envAcct : StateEnv :=
  { getAccountState := fun _ => ⟨0, 1000000000000000000⟩, getNetworkState := ⟨30000000⟩,
    getNetworkDifficulty := 0, getBlock := fun _ => none,
    getBlockAtHeight := fun _ => none, getLatestBlock := none }

/-- Pool configuration with a pending capacity of ONE entry. -/
def cfgOne : TransactionPoolConfig := ⟨1, 10, 0, 3600000⟩

/-- The pool state reached by restoring two persisted (valid, fresh)
entries at startup into an empty pool. -/
def loadedPool : PoolState :=
  TransactionPool.loadPersistedTransactions envAcct
    [("t1", TransactionPool.prepareTransaction 0 (mkTx "t1")),
     ("t2", TransactionPool.prepareTransaction 0 (mkTx "t2"))]
    [] PoolState.empty

/-- C4 counterexample: `loadPersistedTransactions` re-validates entries
but applies no capacity check, so a restore can leave 2 pending entries
under a capacity of 1, and the maintenance cycle `updatePool` — which
only evicts expired entries and promotes — completes with the pending
tier still above `maxPendingTransactions`. -/
theorem pool_bound_counterexample :
    cfgOne.maxPendingTransactions = 1
    ∧ loadedPool.pending.length = 2
    ∧ (TransactionPool.updatePool 0 cfgOne loadedPool).pending.length = 2 :=
  ⟨rfl, rfl, rfl⟩

/-- A pool holding a single fresh pending entry. -/
def poolSmall : PoolState :=
  ⟨[("t1", TransactionPool.prepareTransaction 0 (mkTx "t1"))], []⟩

/-- Witness for C4 (amended) at a concrete in-bound pool. -/
theorem updatePool_preserves_pending_bound_witness :
    (TransactionPool.updatePool 0 cfgOne poolSmall).pending.length
      ≤ cfgOne.maxPendingTransactions :=
  updatePool_preserves_pending_bound 0 cfgOne poolSmall (by decide)

/-! ## C9 -/

/-- C9 (amended): when a valid transaction arrives while the pending
tier is at (or beyond) capacity, `addTransaction` reports SUCCESS and
silently places the transaction in the queued tier; no maintenance
cycle runs before a retry (the pending tier — even its expired
entries — is untouched) and no `PoolFull` failure exists in the code. -/
theorem addTransaction_full_queues (env : StateEnv) (now : Int)
    (cfg : TransactionPoolConfig) (s : PoolState) (tx : Transaction)
    (hvalid : TransactionPool.validateTransaction env tx = true)
    (hfull : cfg.maxPendingTransactions ≤ s.pending.length) :
    (TransactionPool.addTransaction env now cfg s tx).1.success = true
    ∧ (TransactionPool.addTransaction env now cfg s tx).2.pending = s.pending
    ∧ (TransactionPool.addTransaction env now cfg s tx).2.queued
        = mapSet s.queued tx.hash (TransactionPool.prepareTransaction now tx) := by
  have hcan : TransactionPool.canAddToPending cfg s.pending
      (TransactionPool.prepareTransaction now tx) = false := by
    unfold TransactionPool.canAddToPending
    have hge : s.pending.length ≥ cfg.maxPendingTransactions := hfull
    simp [hge]
  unfold TransactionPool.addTransaction TransactionPool.processTransaction
  rw [if_neg (by simp [hvalid])]
  rw [if_neg (by simp [hcan])]
  exact ⟨rfl, rfl, rfl⟩

/-- Pool configuration with pending capacity 1 and a 1-second timeout. -/
def cfgTimeout : TransactionPoolConfig := ⟨1, 10, 0, 1000⟩

/-- A pool whose single pending entry was added 5 seconds before `now = 0`
(so it is already expired under `cfgTimeout`). -/
def poolFull : PoolState :=
  ⟨[("t0", TransactionPool.prepareTransaction (-5000) (mkTx "t0"))], []⟩

/-- C9 counterexample: the pending tier is at capacity with an EXPIRED
entry; a new valid transaction is admitted with `success: true` and goes
to `queued`, while the expired entry is still in `pending` — proof that
no maintenance cycle ran before insertion and that no `PoolFull` failure
was produced. -/
theorem poolfull_claim_counterexample :
    poolFull.pending.length = cfgTimeout.maxPendingTransactions
    ∧ (0 : Int) - (TransactionPool.prepareTransaction (-5000) (mkTx "t0")).addedAt
        > cfgTimeout.transactionTimeout
    ∧ (TransactionPool.addTransaction envAcct 0 cfgTimeout poolFull (mkTx "t1")).1.success = true
    ∧ (TransactionPool.addTransaction envAcct 0 cfgTimeout poolFull (mkTx "t1")).2.pending
        = poolFull.pending
    ∧ (TransactionPool.addTransaction envAcct 0 cfgTimeout poolFull (mkTx "t1")).2.queued
        = [("t1", TransactionPool.prepareTransaction 0 (mkTx "t1"))] :=
  ⟨rfl, by decide, rfl, rfl, rfl⟩

/-- Witness for C9 (amended) at the concrete full pool. -/
theorem addTransaction_full_queues_witness :
    (TransactionPool.addTransaction envAcct 0 cfgTimeout poolFull (mkTx "t2")).1.success = true
    ∧ (TransactionPool.addTransaction envAcct 0 cfgTimeout poolFull (mkTx "t2")).2.pending
        = poolFull.pending
    ∧ (TransactionPool.addTransaction envAcct 0 cfgTimeout poolFull (mkTx "t2")).2.queued
        = mapSet poolFull.queued (mkTx "t2").hash
            (TransactionPool.prepareTransaction 0 (mkTx "t2")) :=
  addTransaction_full_queues envAcct 0 cfgTimeout poolFull (mkTx "t2")
    (by decide) (by decide)
